import Mathlib

/-!
Verification development for the memflow capture/dedup/ingest pipeline,
its retrieval engine and its automation agent.  Rust sources are embedded
shallowly: machine integers become `Nat`/`Int` with explicit bounds where
overflow matters, floating-point scores become `ℚ` with the transcendental
helpers (`sqrt`, `0.9 ^ x`) abstracted as function parameters, strings
become `String` or `List Char`, fallible paths return `Option`/`Except`,
and database tables become lists of row structures.
-/

namespace Memflow

/-- Population count of a natural number (number of set bits). -/
def popcount (n : Nat) : Nat :=
  if n = 0 then 0 else n % 2 + popcount (n / 2)
decreasing_by exact Nat.div_lt_self (Nat.pos_of_ne_zero (by assumption)) (by norm_num)

/-- `recorder.rs::hamming_distance`: `(hash1 ^ hash2).count_ones()`. -/
def hamming_distance (hash1 hash2 : Nat) : Nat :=
  popcount (Nat.xor hash1 hash2)

/-- `recorder.rs::DEDUP_HAMMING_THRESHOLD`. -/
def DEDUP_HAMMING_THRESHOLD : Nat := 5

/-- Value of a hex digit, as accepted by Rust's `from_str_radix(_, 16)`. -/
def hexDigitVal (c : Char) : Option Nat :=
  if '0' ≤ c ∧ c ≤ '9' then some (c.toNat - '0'.toNat)
  else if 'a' ≤ c ∧ c ≤ 'f' then some (c.toNat - 'a'.toNat + 10)
  else if 'A' ≤ c ∧ c ≤ 'F' then some (c.toNat - 'A'.toNat + 10)
  else none

/-- Accumulate hex digits left to right; `none` on the first invalid digit. -/
def parseHexCore (cs : List Char) : Option Nat :=
  cs.foldl (fun acc c => acc.bind fun v => (hexDigitVal c).map fun d => v * 16 + d) (some 0)

/-- `recorder.rs::parse_phash`: `u64::from_str_radix(phash_str, 16).ok()`.
An optional leading `+` is accepted, the digit string must be nonempty,
and a value that overflows 64 bits yields `none`. -/
def parse_phash (s : List Char) : Option Nat :=
  match s with
  | [] => none
  | '+' :: rest =>
      if rest.isEmpty then none
      else (parseHexCore rest).bind fun v => if v < 2 ^ 64 then some v else none
  | _ => (parseHexCore s).bind fun v => if v < 2 ^ 64 then some v else none

/-- Rendering of `format!("{:016x}", hash)` for a 64-bit value: sixteen
lowercase hex digits, most significant first. -/
def toHex16 (h : Nat) : List Char :=
  (List.range 16).map fun i => Nat.digitChar (h / 16 ^ (15 - i) % 16)

/-- `recorder.rs::adjust_heartbeat` acting on the current period in seconds:
on a duplicate the period is `(current + 5).min(60)`, otherwise
`current.saturating_sub(5).max(10)`. -/
def adjust_heartbeat (on_duplicate : Bool) (current : Nat) : Nat :=
  if on_duplicate then min (current + 5) 60 else max (current - 5) 10

/-- `recorder.rs::recording_loop` initialisation of `HEARTBEAT_SECS`:
`(config.recording_interval / 1000).max(10).min(60)`. -/
def initial_heartbeat (recording_interval_ms : Nat) : Nat :=
  min (max (recording_interval_ms / 1000) 10) 60

/-- Heartbeat periods reachable by the capture worker: the initial store
followed by any sequence of `adjust_heartbeat` updates. -/
inductive HeartbeatReachable (recording_interval_ms : Nat) : Nat → Prop
  | init : HeartbeatReachable recording_interval_ms (initial_heartbeat recording_interval_ms)
  | step (b : Bool) {h : Nat} (prev : HeartbeatReachable recording_interval_ms h) :
      HeartbeatReachable recording_interval_ms (adjust_heartbeat b h)

/-- `recorder.rs::capture_and_save` visual-change test: changed when the
last pHash is absent, fails to parse, or is at Hamming distance above the
threshold from the current hash. -/
def visual_changed (last_phash : Option (List Char)) (current_hash : Nat) : Bool :=
  match last_phash with
  | some last =>
      match parse_phash last with
      | some last_hash => hamming_distance current_hash last_hash > DEDUP_HAMMING_THRESHOLD
      | none => true
  | none => true

/-- `recorder.rs::capture_and_save` text-change test on the two optional
64-bit text hashes. -/
def text_changed (current_text_hash last_text_hash : Option Nat) : Bool :=
  match current_text_hash, last_text_hash with
  | some curr, some last => curr != last
  | some _, none => true
  | none, some _ => true
  | none, none => false

/-- One activity row as inserted by `db::insert_activity`. -/
structure ActivityInsert where
  timestamp : Int
  app_name : String
  window_title : String
  image_path : List Char
  phash : Option (List Char)
  app_path : Option String
  deriving Repr, DecidableEq

/-- The mutable state touched by `capture_and_save` from the dual-dedup
step on: the two last-hash cells, the heartbeat period, the skipped-stat
reasons recorded, the activity rows and the image files written. -/
structure CaptureState where
  last_phash : Option (List Char)
  last_text_hash : Option Nat
  heartbeat_secs : Nat
  skipped : List String
  activities : List ActivityInsert
  images : List (List Char)
  deriving Repr, DecidableEq

/-- The per-frame data available when `capture_and_save` reaches the dual
dedup step: the freshly computed dHash, the optional text hash of the
extractor output, and the metadata of the foreground window. -/
structure FrameInput where
  current_hash : Nat
  current_text_hash : Option Nat
  timestamp : Int
  process_name : String
  title : String
  process_path : String
  deriving Repr, DecidableEq

/-- `recorder.rs::capture_and_save`, steps 5-10: the dual dedup decision
and, on change, the persist path (file write, row insert, last-hash
update, heartbeat shrink); on a duplicate the skip path (duplicate_frame
counter, heartbeat growth). -/
def capture_and_save (st : CaptureState) (input : FrameInput) : CaptureState :=
  let vc := visual_changed st.last_phash input.current_hash
  let tc := text_changed input.current_text_hash st.last_text_hash
  if !vc && !tc then
    { st with
      heartbeat_secs := adjust_heartbeat true st.heartbeat_secs
      skipped := "duplicate_frame" :: st.skipped }
  else
    let phash_str := toHex16 input.current_hash
    let phash_short := if phash_str.length ≥ 16 then phash_str.take 16 else phash_str
    let filename := (toString input.timestamp).toList ++ ('_' :: phash_short) ++ ".webp".toList
    let row : ActivityInsert :=
      { timestamp := input.timestamp
        app_name := input.process_name
        window_title := input.title
        image_path := filename
        phash := some phash_str
        app_path := some input.process_path }
    { st with
      heartbeat_secs := adjust_heartbeat false st.heartbeat_secs
      last_phash := some phash_str
      last_text_hash := input.current_text_hash
      activities := row :: st.activities
      images := filename :: st.images }

/-- The skip outcome of the dual-dedup step as the claim describes it: no
row, no image, the `duplicate_frame` counter incremented, heartbeat
widened, last hashes untouched. -/
def skipOutcome (st : CaptureState) : CaptureState :=
  { st with
    heartbeat_secs := adjust_heartbeat true st.heartbeat_secs
    skipped := "duplicate_frame" :: st.skipped }

/-- The persist outcome of `capture_and_save` for a frame that is not a
duplicate. -/
def persistOutcome (st : CaptureState) (input : FrameInput) : CaptureState :=
  let phash_str := toHex16 input.current_hash
  let phash_short := if phash_str.length ≥ 16 then phash_str.take 16 else phash_str
  let filename := (toString input.timestamp).toList ++ ('_' :: phash_short) ++ ".webp".toList
  let row : ActivityInsert :=
    { timestamp := input.timestamp
      app_name := input.process_name
      window_title := input.title
      image_path := filename
      phash := some phash_str
      app_path := some input.process_path }
  { st with
    heartbeat_secs := adjust_heartbeat false st.heartbeat_secs
    last_phash := some phash_str
    last_text_hash := input.current_text_hash
    activities := row :: st.activities
    images := filename :: st.images }

/-- The condition of claim C1, stated as in the spec: the previous pHash is
present (and denotes a 64-bit value) at Hamming distance at most 5 from
the current dHash, and the two text hashes are both absent or both present
and equal. -/
def dedupSkipCond (st : CaptureState) (input : FrameInput) : Prop :=
  (∃ last_hash, st.last_phash.bind parse_phash = some last_hash ∧
      hamming_distance input.current_hash last_hash ≤ 5) ∧
  ((input.current_text_hash = none ∧ st.last_text_hash = none) ∨
    (∃ t, input.current_text_hash = some t ∧ st.last_text_hash = some t))

theorem visual_changed_false_iff (lp : Option (List Char)) (ch : Nat) :
    visual_changed lp ch = false ↔
      ∃ last_hash, lp.bind parse_phash = some last_hash ∧
        hamming_distance ch last_hash ≤ 5 := by
  unfold visual_changed
  cases lp with
  | none => simp
  | some l =>
    cases hp : parse_phash l with
    | none => simp [hp]
    | some h => simp [hp, DEDUP_HAMMING_THRESHOLD, Nat.not_lt]

theorem text_changed_false_iff (c l : Option Nat) :
    text_changed c l = false ↔
      (c = none ∧ l = none) ∨ ∃ t, c = some t ∧ l = some t := by
  cases c with
  | none => cases l <;> simp [text_changed]
  | some a =>
    cases l with
    | none => simp [text_changed]
    | some b =>
      simp only [text_changed, bne_eq_false_iff_eq]
      constructor
      · intro h
        exact Or.inr ⟨a, rfl, by rw [h]⟩
      · rintro (⟨h, _⟩ | ⟨t, ht, hl⟩)
        · exact absurd h (by simp)
        · cases ht; cases hl; rfl

end Memflow

namespace Memflow

/-- C1: an invocation of `capture_and_save` that reaches the dual-dedup
step takes the skip path (no activity row, no image file, the
`duplicate_frame` counter incremented, heartbeat widened) exactly when the
previous pHash is present and within Hamming distance 5 of the current
dHash and the text hashes are both absent or both present and equal; in
every other case it persists a new row. -/
theorem capture_dedup_skip_iff (st : CaptureState) (input : FrameInput) :
    (capture_and_save st input = skipOutcome st ↔ dedupSkipCond st input) ∧
    (capture_and_save st input = persistOutcome st input ↔ ¬ dedupSkipCond st input) := by
  have hiff : (!visual_changed st.last_phash input.current_hash &&
      !text_changed input.current_text_hash st.last_text_hash) = true ↔
      dedupSkipCond st input := by
    rw [Bool.and_eq_true, Bool.not_eq_true', Bool.not_eq_true']
    rw [visual_changed_false_iff, text_changed_false_iff]
    exact Iff.rfl
  have hne : skipOutcome st ≠ persistOutcome st input := by
    intro h
    have h2 : (skipOutcome st).activities.length =
        (persistOutcome st input).activities.length := by rw [h]
    simp only [skipOutcome, persistOutcome, List.length_cons] at h2
    omega
  cases hcond : (!visual_changed st.last_phash input.current_hash &&
      !text_changed input.current_text_hash st.last_text_hash) with
  | true =>
    have heq : capture_and_save st input = skipOutcome st := by
      unfold capture_and_save
      simp only [hcond]
      rfl
    refine ⟨⟨fun _ => hiff.mp hcond, fun _ => heq⟩, ?_⟩
    constructor
    · intro h
      exact absurd (heq ▸ h) hne
    · intro h
      exact absurd (hiff.mp hcond) h
  | false =>
    have heq : capture_and_save st input = persistOutcome st input := by
      unfold capture_and_save
      simp only [hcond]
      rfl
    have hnc : ¬ dedupSkipCond st input := fun hc => by
      rw [← hiff] at hc
      simp [hcond] at hc
    refine ⟨⟨fun h => absurd (heq ▸ h).symm hne, fun hc => absurd hc hnc⟩, ?_⟩
    exact ⟨fun _ => hnc, fun _ => heq⟩

/-- C7 (amended): every reachable heartbeat period lies in [10 s, 60 s];
a duplicate skip grows the period by 5 s (capped at 60 s), an accepted
frame shrinks it by 5 s (floored at 10 s); the configured
recording-interval determines only the initial period, clamped into
[10 s, 60 s]. -/
theorem heartbeat_bounds (interval : Nat) :
    (∀ h, HeartbeatReachable interval h → 10 ≤ h ∧ h ≤ 60) ∧
    (∀ h, h ≤ 55 → adjust_heartbeat true h = h + 5) ∧
    (∀ h, 15 ≤ h → adjust_heartbeat false h = h - 5) ∧
    (10 ≤ interval / 1000 → interval / 1000 ≤ 60 →
      initial_heartbeat interval = interval / 1000) := by
  refine ⟨?_, ?_, ?_, ?_⟩
  · intro h hr
    induction hr with
    | init => unfold initial_heartbeat; omega
    | @step b h prev ih =>
      cases b
      · have hb : adjust_heartbeat false h = max (h - 5) 10 := rfl
        rw [hb]; omega
      · have hb : adjust_heartbeat true h = min (h + 5) 60 := rfl
        rw [hb]; omega
  · intro h hle
    have hb : adjust_heartbeat true h = min (h + 5) 60 := rfl
    rw [hb]; omega
  · intro h hge
    have hb : adjust_heartbeat false h = max (h - 5) 10 := rfl
    rw [hb]; omega
  · intro h1 h2
    unfold initial_heartbeat
    omega

/-- Witness for `heartbeat_bounds` at concrete inputs. -/
theorem heartbeat_bounds_witness :
    (10 ≤ initial_heartbeat 20000 ∧ initial_heartbeat 20000 ≤ 60) ∧
    adjust_heartbeat true 20 = 25 ∧ adjust_heartbeat false 20 = 15 ∧
    initial_heartbeat 20000 = 20000 / 1000 :=
  ⟨(heartbeat_bounds 20000).1 _ .init,
   (heartbeat_bounds 20000).2.1 20 (by decide),
   (heartbeat_bounds 20000).2.2.1 20 (by decide),
   (heartbeat_bounds 20000).2.2.2 (by decide) (by decide)⟩

/-- One row of the `ocr_queue` table. -/
structure OcrQueueEntry where
  id : Int
  activity_id : Int
  status : String
  retry_count : Int
  error_message : Option String
  updated_at : Int
  deriving Repr, DecidableEq

/-- The effect of `db.rs::update_ocr_queue_status` on a single row: when
the row id matches, the `pending` transition runs the UPDATE that also
does `retry_count = retry_count + 1`; any other status runs the UPDATE
without the increment. -/
def updateOcrEntry (id : Int) (status : String) (error_message : Option String)
    (now : Int) (e : OcrQueueEntry) : OcrQueueEntry :=
  if e.id = id then
    if status = "pending" then
      { e with status := status, error_message := error_message,
               updated_at := now, retry_count := e.retry_count + 1 }
    else
      { e with status := status, error_message := error_message, updated_at := now }
  else e

/-- `db.rs::update_ocr_queue_status` over the whole queue table. -/
def update_ocr_queue_status (q : List OcrQueueEntry) (id : Int) (status : String)
    (error_message : Option String) (now : Int) : List OcrQueueEntry :=
  q.map (updateOcrEntry id status error_message now)

/-- `db.rs::OcrQueueItem`: a fetched OCR job. -/
structure OcrQueueItem where
  id : Int
  activity_id : Int
  image_path : String
  retry_count : Int
  deriving Repr, DecidableEq

/-- `ocr_worker.rs::run_worker`, OCR-failure branch: a job whose fetched
`retry_count` is at least 3 is marked `failed` (dead-letter), otherwise it
is returned to `pending` with the error message. -/
def handle_ocr_failure (q : List OcrQueueEntry) (task : OcrQueueItem)
    (err_msg : String) (now : Int) : List OcrQueueEntry :=
  if task.retry_count ≥ 3 then
    update_ocr_queue_status q task.id "failed" (some err_msg) now
  else
    update_ocr_queue_status q task.id "pending" (some err_msg) now

/-- C3: a queue UPDATE increments `retry_count` by exactly 1 precisely
when it sets the status to `pending` on a matching row (atomically, in the
same UPDATE) and leaves it unchanged for any other status, and the worker
marks a failed job `failed` (dead-letter, retry count untouched) when its
fetched retry count is at least 3, returning it to `pending` otherwise. -/
theorem ocr_retry_semantics (id : Int) (status : String) (err : Option String)
    (now : Int) (e : OcrQueueEntry) (q : List OcrQueueEntry) (task : OcrQueueItem)
    (msg : String) :
    ((updateOcrEntry id status err now e).retry_count =
      if e.id = id ∧ status = "pending" then e.retry_count + 1 else e.retry_count) ∧
    ((updateOcrEntry id status err now e).status =
      if e.id = id then status else e.status) ∧
    (3 ≤ task.retry_count →
      handle_ocr_failure q task msg now =
        q.map fun r =>
          if r.id = task.id then
            { r with status := "failed", error_message := some msg, updated_at := now }
          else r) ∧
    (task.retry_count < 3 →
      handle_ocr_failure q task msg now =
        q.map fun r =>
          if r.id = task.id then
            { r with status := "pending", error_message := some msg, updated_at := now,
                     retry_count := r.retry_count + 1 }
          else r) := by
  refine ⟨?_, ?_, ?_, ?_⟩
  · unfold updateOcrEntry
    by_cases h1 : e.id = id <;> by_cases h2 : status = "pending" <;>
      simp [h1, h2]
  · unfold updateOcrEntry
    by_cases h1 : e.id = id <;> by_cases h2 : status = "pending" <;>
      simp [h1, h2]
  · intro h3
    unfold handle_ocr_failure update_ocr_queue_status
    rw [if_pos h3]
    refine List.map_congr_left fun r _ => ?_
    unfold updateOcrEntry
    by_cases h1 : r.id = task.id <;> simp [h1]
  · intro h3
    unfold handle_ocr_failure update_ocr_queue_status
    rw [if_neg (by omega)]
    refine List.map_congr_left fun r _ => ?_
    unfold updateOcrEntry
    by_cases h1 : r.id = task.id <;> simp [h1]

/-- Witness for `ocr_retry_semantics` at a concrete queue. -/
theorem ocr_retry_semantics_witness :
    handle_ocr_failure
        [{ id := 7, activity_id := 42, status := "processing", retry_count := 3,
           error_message := none, updated_at := 0 }]
        { id := 7, activity_id := 42, image_path := "a.webp", retry_count := 3 }
        "boom" 99 =
      [{ id := 7, activity_id := 42, status := "failed", retry_count := 3,
         error_message := some "boom", updated_at := 99 }] := by
  rw [(ocr_retry_semantics 7 "failed" none 99
      { id := 7, activity_id := 42, status := "processing", retry_count := 3,
        error_message := none, updated_at := 0 }
      [{ id := 7, activity_id := 42, status := "processing", retry_count := 3,
         error_message := none, updated_at := 0 }]
      { id := 7, activity_id := 42, image_path := "a.webp", retry_count := 3 }
      "boom").2.2.1 (by decide)]
  rfl

/-- `vector_db.rs::EMBEDDING_DIM`. -/
def EMBEDDING_DIM : Nat := 384

/-- `vector_db.rs::cosine_similarity` over ℚ, with the square root of the
float implementation abstracted as the parameter `sqrt`: mismatched
lengths return 0, a zero norm returns 0, otherwise the normalised dot
product. -/
def cosine_similarity (sqrt : ℚ → ℚ) (a b : List ℚ) : ℚ :=
  if a.length ≠ b.length then 0
  else
    let dot_product := ((a.zip b).map fun p => p.1 * p.2).sum
    let norm_a := sqrt ((a.map fun x => x * x).sum)
    let norm_b := sqrt ((b.map fun x => x * x).sum)
    if norm_a = 0 ∨ norm_b = 0 then 0
    else dot_product / (norm_a * norm_b)

/-- The rows fetched by `vector_db.rs::search_similar_with_candidates`:
all embeddings, or only those whose activity id is in the (nonempty)
candidate list. -/
def fetchEmbeddingRows (candidate_ids : Option (List Int))
    (rows : List (Int × List ℚ)) : List (Int × List ℚ) :=
  match candidate_ids with
  | some ids => if ids.isEmpty then rows else rows.filter fun r => ids.contains r.1
  | none => rows

/-- The per-row scoring loop of `search_similar_with_candidates`: each
stored embedding is paired with its cosine similarity to the query. -/
def scoreEmbeddingRows (sqrt : ℚ → ℚ) (query : List ℚ)
    (rows : List (Int × List ℚ)) : List (Int × ℚ) :=
  rows.map fun r => (r.1, cosine_similarity sqrt query r.2)

/-- `vector_db.rs::search_similar_with_candidates`: reject only a query of
the wrong dimension, score every fetched row, sort by score descending and
truncate to `limit`. -/
def search_similar_with_candidates (sqrt : ℚ → ℚ) (query : List ℚ) (limit : Nat)
    (candidate_ids : Option (List Int)) (rows : List (Int × List ℚ)) :
    Except String (List (Int × ℚ)) :=
  if query.length ≠ EMBEDDING_DIM then
    .error "Query vector dimension mismatch"
  else
    let scored := scoreEmbeddingRows sqrt query (fetchEmbeddingRows candidate_ids rows)
    .ok ((scored.mergeSort fun x y => decide (y.2 ≤ x.2)).take limit)

/-- C10: `cosine_similarity` returns exactly 0 whenever the two vector
lengths differ, so a stored embedding whose dimension disagrees with the
384-dimensional query contributes score 0 to the scored rows of vector
search, which still succeeds rather than raising an error. -/
theorem cosine_dim_mismatch_zero :
    (∀ (sqrt : ℚ → ℚ) (a b : List ℚ), a.length ≠ b.length →
      cosine_similarity sqrt a b = 0) ∧
    (∀ (sqrt : ℚ → ℚ) (query : List ℚ) (limit : Nat) (ids : Option (List Int))
        (rows : List (Int × List ℚ)), query.length = EMBEDDING_DIM →
      search_similar_with_candidates sqrt query limit ids rows =
        .ok ((scoreEmbeddingRows sqrt query
                (fetchEmbeddingRows ids rows)).mergeSort
              (fun x y => decide (y.2 ≤ x.2)) |>.take limit)) ∧
    (∀ (sqrt : ℚ → ℚ) (query : List ℚ) (id : Int) (emb : List ℚ)
        (rows : List (Int × List ℚ)), (id, emb) ∈ rows →
      emb.length ≠ query.length → (id, 0) ∈ scoreEmbeddingRows sqrt query rows) := by
  refine ⟨?_, ?_, ?_⟩
  · intro sqrt a b hne
    unfold cosine_similarity
    rw [if_pos hne]
  · intro sqrt query limit ids rows hq
    unfold search_similar_with_candidates
    rw [if_neg (by simp [hq])]
  · intro sqrt query id emb rows hmem hne
    have h0 : cosine_similarity sqrt query emb = 0 := by
      unfold cosine_similarity
      rw [if_pos (fun h => hne (h.symm))]
    have : (id, cosine_similarity sqrt query emb) ∈ scoreEmbeddingRows sqrt query rows := by
      unfold scoreEmbeddingRows
      exact List.mem_map_of_mem _ hmem
    rwa [h0] at this

/-- Witness for `cosine_dim_mismatch_zero` at concrete vectors: a stored
2-dimensional embedding against a 3-dimensional query scores 0. -/
theorem cosine_dim_mismatch_zero_witness :
    cosine_similarity (fun q => q) [1, 2, 3] [1, 2] = 0 ∧
    (5, 0) ∈ scoreEmbeddingRows (fun q => q) [1, 2, 3] [(5, [1, 2])] :=
  ⟨cosine_dim_mismatch_zero.1 (fun q => q) [1, 2, 3] [1, 2] (by decide),
   cosine_dim_mismatch_zero.2.2 (fun q => q) [1, 2, 3] 5 [1, 2] [(5, [1, 2])]
     (by decide) (by decide)⟩

/-- One row of `activity_logs` as selected by the search queries. -/
structure ActivityRow where
  id : Int
  timestamp : Int
  app_name : String
  window_title : String
  image_path : String
  ocr_text : Option String
  phash : Option String
  deriving Repr, DecidableEq

/-- `query.as_ref().map(|s| !s.is_empty()).unwrap_or(false)`. -/
def hasQueryOf (query : Option String) : Bool :=
  match query with
  | some s => !s.isEmpty
  | none => false

/-- The WHERE clause shared by the COUNT and page queries of
`memflow-core/db.rs::search_activities_impl` (the same filter text is
pushed by `src-tauri/db.rs::search_activities`).  The SQLite `MATCH` and
`LIKE '%…%'` predicates are abstracted as the parameters `ftsMatch` and
`likeMatch`; `REPLACE(app_name, '.exe', '')` is `String.replace`. -/
def rowMatches (ftsMatch : String → ActivityRow → Bool)
    (likeMatch : String → String → Bool)
    (query app_name : Option String) (from_ts to_ts : Option Int)
    (has_ocr : Option Bool) (a : ActivityRow) : Bool :=
  (if hasQueryOf query then ftsMatch (query.getD "") a else true) &&
  (match app_name with
   | some app =>
       if app.isEmpty then true
       else likeMatch app a.app_name || likeMatch app (a.app_name.replace ".exe" "")
   | none => true) &&
  (match from_ts with
   | some f => decide (f ≤ a.timestamp)
   | none => true) &&
  (match to_ts with
   | some t => decide (a.timestamp ≤ t)
   | none => true) &&
  (match has_ocr with
   | some true => decide (a.ocr_text ≠ none ∧ a.ocr_text ≠ some "")
   | some false => decide (a.ocr_text = none ∨ a.ocr_text = some "")
   | none => true)

/-- SQLite `OFFSET ?`: a negative bound offset skips nothing. -/
def applyOffset (offset : Option Int) (l : List ActivityRow) : List ActivityRow :=
  match offset with
  | some o => l.drop o.toNat
  | none => l

/-- SQLite `LIMIT ?`: a negative bound limit returns all rows. -/
def applyLimit (limit : Option Int) (l : List ActivityRow) : List ActivityRow :=
  match limit with
  | some k => if k < 0 then l else l.take k.toNat
  | none => l

/-- The main (page) query shared by both `search_activities` versions:
filter, order by BM25 rank (`rank` abstracts `bm25(activity_logs_fts)`)
when requested and a full-text query is present, otherwise by timestamp
descending, then apply LIMIT/OFFSET. -/
def searchPage (ftsMatch : String → ActivityRow → Bool)
    (likeMatch : String → String → Bool) (rank : ActivityRow → ℚ)
    (query app_name : Option String) (from_ts to_ts : Option Int)
    (has_ocr : Option Bool) (limit offset : Option Int) (order_by : Option String)
    (rows : List ActivityRow) : List ActivityRow :=
  let filtered := rows.filter (rowMatches ftsMatch likeMatch query app_name from_ts to_ts has_ocr)
  let ordered :=
    if order_by.getD "time" = "rank" ∧ hasQueryOf query then
      filtered.mergeSort fun x y => decide (rank x ≤ rank y)
    else
      filtered.mergeSort fun x y => decide (y.timestamp ≤ x.timestamp)
  applyLimit limit (applyOffset offset ordered)

/-- `memflow-core/db.rs::search_activities_impl`: a COUNT query under the
same WHERE clause computes `total`, then the page query runs. -/
def search_activities_impl (ftsMatch : String → ActivityRow → Bool)
    (likeMatch : String → String → Bool) (rank : ActivityRow → ℚ)
    (query app_name : Option String) (from_ts to_ts : Option Int)
    (has_ocr : Option Bool) (limit offset : Option Int) (order_by : Option String)
    (rows : List ActivityRow) : List ActivityRow × Int :=
  let total : Int :=
    (rows.filter (rowMatches ftsMatch likeMatch query app_name from_ts to_ts has_ocr)).length
  (searchPage ftsMatch likeMatch rank query app_name from_ts to_ts has_ocr
      limit offset order_by rows, total)

/-- `src-tauri/db.rs::search_activities`: the same page query, but the
returned total is the hard-coded 0 of `Ok((activities, 0))`. -/
def search_activities_tauri (ftsMatch : String → ActivityRow → Bool)
    (likeMatch : String → String → Bool) (rank : ActivityRow → ℚ)
    (query app_name : Option String) (from_ts to_ts : Option Int)
    (has_ocr : Option Bool) (limit offset : Option Int) (order_by : Option String)
    (rows : List ActivityRow) : List ActivityRow × Int :=
  (searchPage ftsMatch likeMatch rank query app_name from_ts to_ts has_ocr
      limit offset order_by rows, 0)

/-- C2 (amended): in `search_activities_impl` (memflow-core) the returned
total equals the number of rows satisfying exactly the WHERE filters of
the page, independent of limit and offset, and every returned item
satisfies those filters; the `src-tauri` `search_activities`, by contrast,
always returns total 0. -/
theorem search_total_consistent (ftsMatch : String → ActivityRow → Bool)
    (likeMatch : String → String → Bool) (rank : ActivityRow → ℚ)
    (query app_name : Option String) (from_ts to_ts : Option Int)
    (has_ocr : Option Bool) (limit offset : Option Int) (order_by : Option String)
    (rows : List ActivityRow) :
    ((search_activities_impl ftsMatch likeMatch rank query app_name from_ts to_ts
        has_ocr limit offset order_by rows).2 =
      ((rows.filter (rowMatches ftsMatch likeMatch query app_name from_ts to_ts
          has_ocr)).length : Int)) ∧
    (∀ limit2 offset2 : Option Int,
      (search_activities_impl ftsMatch likeMatch rank query app_name from_ts to_ts
          has_ocr limit offset order_by rows).2 =
        (search_activities_impl ftsMatch likeMatch rank query app_name from_ts to_ts
            has_ocr limit2 offset2 order_by rows).2) ∧
    (∀ r ∈ (search_activities_impl ftsMatch likeMatch rank query app_name from_ts
        to_ts has_ocr limit offset order_by rows).1,
      rowMatches ftsMatch likeMatch query app_name from_ts to_ts has_ocr r = true) ∧
    ((search_activities_tauri ftsMatch likeMatch rank query app_name from_ts to_ts
        has_ocr limit offset order_by rows).2 = 0) := by
  refine ⟨rfl, fun _ _ => rfl, ?_, rfl⟩
  intro r hr
  have h1 : r ∈ applyOffset offset
      (if order_by.getD "time" = "rank" ∧ hasQueryOf query then
        (rows.filter (rowMatches ftsMatch likeMatch query app_name from_ts to_ts
          has_ocr)).mergeSort fun x y => decide (rank x ≤ rank y)
      else
        (rows.filter (rowMatches ftsMatch likeMatch query app_name from_ts to_ts
          has_ocr)).mergeSort fun x y => decide (y.timestamp ≤ x.timestamp)) := by
    have := hr
    unfold search_activities_impl searchPage applyLimit at this
    match limit with
    | none => exact this
    | some k =>
      by_cases hk : k < 0
      · simpa [hk] using this
      · exact List.mem_of_mem_take (by simpa [hk] using this)
  have h2 : r ∈ rows.filter (rowMatches ftsMatch likeMatch query app_name from_ts
      to_ts has_ocr) := by
    have h3 := h1
    unfold applyOffset at h3
    have h4 : r ∈ (if order_by.getD "time" = "rank" ∧ hasQueryOf query then
        (rows.filter (rowMatches ftsMatch likeMatch query app_name from_ts to_ts
          has_ocr)).mergeSort fun x y => decide (rank x ≤ rank y)
      else
        (rows.filter (rowMatches ftsMatch likeMatch query app_name from_ts to_ts
          has_ocr)).mergeSort fun x y => decide (y.timestamp ≤ x.timestamp)) := by
      match offset with
      | none => exact h3
      | some o => exact List.mem_of_mem_drop h3
    by_cases hord : order_by.getD "time" = "rank" ∧ hasQueryOf query
    · rw [if_pos hord] at h4
      exact List.mem_mergeSort.mp h4
    · rw [if_neg hord] at h4
      exact List.mem_mergeSort.mp h4
  exact (List.mem_filter.mp h2).2

/-- Witness for `search_total_consistent` at a concrete table. -/
theorem search_total_consistent_witness :
    (search_activities_impl (fun _ _ => true) (fun _ _ => true) (fun _ => 0)
        none none none none none (some 10) (some 0) none
        [{ id := 1, timestamp := 100, app_name := "code", window_title := "w",
           image_path := "i.webp", ocr_text := none, phash := none }]).2 =
      (([{ id := 1, timestamp := 100, app_name := "code", window_title := "w",
           image_path := "i.webp", ocr_text := none, phash := none }] :
          List ActivityRow).filter
        (rowMatches (fun _ _ => true) (fun _ _ => true) none none none none none)).length :=
  (search_total_consistent (fun _ _ => true) (fun _ _ => true) (fun _ => 0)
      none none none none none (some 10) (some 0) none
      [{ id := 1, timestamp := 100, app_name := "code", window_title := "w",
         image_path := "i.webp", ocr_text := none, phash := none }]).1

/-- Counterexample to C2 as stated: the `src-tauri` `search_activities`
returns a page containing the single matching row yet reports total 0, so
the returned total does not equal the number of rows satisfying the WHERE
filters. -/
theorem search_tauri_total_counterexample :
    (search_activities_tauri (fun _ _ => true) (fun _ _ => true) (fun _ => 0)
        none none none none none none none none
        [{ id := 1, timestamp := 100, app_name := "code", window_title := "w",
           image_path := "i.webp", ocr_text := none, phash := none }]).1.length = 1 ∧
    (search_activities_tauri (fun _ _ => true) (fun _ _ => true) (fun _ => 0)
        none none none none none none none none
        [{ id := 1, timestamp := 100, app_name := "code", window_title := "w",
           image_path := "i.webp", ocr_text := none, phash := none }]).2 = 0 ∧
    (([{ id := 1, timestamp := 100, app_name := "code", window_title := "w",
         image_path := "i.webp", ocr_text := none, phash := none }] :
        List ActivityRow).filter
      (rowMatches (fun _ _ => true) (fun _ _ => true) none none none none none)).length = 1 ∧
    (0 : Int) ≠ 1 := by
  refine ⟨?_, rfl, by decide, by decide⟩
  unfold search_activities_tauri searchPage applyLimit applyOffset
  simp [rowMatches, hasQueryOf]

/-- `agent/mod.rs::AutomationStep`, the closed step sum type. -/
inductive AutomationStep where
  | openUrl (url : String)
  | openFile (path : String)
  | openApp (path : String)
  | copyToClipboard (text : String)
  | createNote (content : String)
  deriving Repr, DecidableEq

/-- The per-variant emptiness test of `agent/mod.rs::validate_steps`:
the required field is empty after trimming. -/
def stepFieldEmpty (s : AutomationStep) : Bool :=
  match s with
  | .openUrl url => url.trim.isEmpty
  | .openFile path => path.trim.isEmpty
  | .openApp path => path.trim.isEmpty
  | .copyToClipboard text => text.trim.isEmpty
  | .createNote content => content.trim.isEmpty

/-- `agent/mod.rs::validate_steps`: the first step whose required field is
empty after trimming aborts with `AGENT_STEP_NOT_ALLOWED`. -/
def validate_steps : List AutomationStep → Except String Unit
  | [] => .ok ()
  | s :: rest =>
      if stepFieldEmpty s then .error "AGENT_STEP_NOT_ALLOWED"
      else validate_steps rest

/-- `agent/mod.rs::steps_action_summary`: variant tags joined by `" + "`. -/
def steps_action_summary (steps : List AutomationStep) : String :=
  String.intercalate " + " (steps.map fun s =>
    match s with
    | .openUrl _ => "open_url"
    | .openFile _ => "open_file"
    | .openApp _ => "open_app"
    | .copyToClipboard _ => "copy_to_clipboard"
    | .createNote _ => "create_note")

/-- The columns of `automation_proposals` read by `execute_automation`. -/
structure ProposalRow where
  id : Int
  title : String
  risk_level : String
  steps_json : String
  deriving Repr, DecidableEq

/-- The execution-row metadata JSON written on completion. -/
structure ExecMetadata where
  steps_total : Int
  steps_success : Int
  duration_s : Int
  deriving Repr, DecidableEq

/-- One row of `agent_executions`. -/
structure ExecutionRow where
  id : Int
  proposal_id : Option Int
  action : String
  status : String
  created_at : Int
  finished_at : Option Int
  error_message : Option String
  metadata : Option ExecMetadata
  deriving Repr, DecidableEq

/-- The agent tables touched by `execute_automation`. -/
structure AgentDb where
  proposals : List ProposalRow
  executions : List ExecutionRow
  deriving Repr, DecidableEq

/-- `agent/mod.rs::ExecutionResultDto`. -/
structure ExecutionResultDto where
  execution_id : Int
  status : String
  deriving Repr, DecidableEq

/-- The synchronous part of `agent/mod.rs::execute_automation`: load the
proposal, gate on risk level, deserialize (`decodeSteps` abstracts
`serde_json::from_str`) and validate the steps, then insert the `running`
execution row and hand the steps to the background task.  The returned
triple is the database afterwards, the steps handed to the background
task (empty on error: nothing is dispatched), and the command result. -/
def execute_automation (decodeSteps : String → Option (List AutomationStep))
    (db : AgentDb) (proposal_id : Int) (now : Int) (execution_id : Int) :
    AgentDb × List AutomationStep × Except String ExecutionResultDto :=
  match db.proposals.find? fun p => p.id = proposal_id with
  | none => (db, [], .error ("AGENT_NOT_FOUND: proposal " ++ toString proposal_id))
  | some row =>
    if row.risk_level ≠ "low" then (db, [], .error "AGENT_RISK_BLOCKED")
    else
      match decodeSteps row.steps_json with
      | none => (db, [], .error "AGENT_STEP_NOT_ALLOWED")
      | some steps =>
        match validate_steps steps with
        | .error e => (db, [], .error e)
        | .ok _ =>
          let newRow : ExecutionRow :=
            { id := execution_id, proposal_id := some proposal_id,
              action := steps_action_summary steps, status := "running",
              created_at := now, finished_at := none, error_message := none,
              metadata := none }
          ({ db with executions := newRow :: db.executions }, steps,
            .ok { execution_id := execution_id, status := "running" })

theorem validate_steps_eq (steps : List AutomationStep) :
    validate_steps steps =
      if steps.any stepFieldEmpty then .error "AGENT_STEP_NOT_ALLOWED" else .ok () := by
  induction steps with
  | nil => rfl
  | cons s rest ih =>
    unfold validate_steps
    by_cases hs : stepFieldEmpty s
    · simp [hs]
    · simp only [hs, if_false, Bool.false_eq_true, List.any_cons, Bool.false_or, ih]

/-- C5: `execute_automation` fails with `AGENT_NOT_FOUND` when no proposal
with the id exists, with `AGENT_RISK_BLOCKED` when the stored risk level
is not `low`, and with `AGENT_STEP_NOT_ALLOWED` when the stored steps do
not deserialize or some step's required field is empty after trimming; on
every error no execution row is inserted and no step is dispatched. -/
theorem execute_automation_errors (decodeSteps : String → Option (List AutomationStep))
    (db : AgentDb) (pid now execId : Int) :
    ((db.proposals.find? fun p => p.id = pid) = none →
      execute_automation decodeSteps db pid now execId =
        (db, [], .error ("AGENT_NOT_FOUND: proposal " ++ toString pid))) ∧
    (∀ row, (db.proposals.find? fun p => p.id = pid) = some row →
      row.risk_level ≠ "low" →
      execute_automation decodeSteps db pid now execId =
        (db, [], .error "AGENT_RISK_BLOCKED")) ∧
    (∀ row, (db.proposals.find? fun p => p.id = pid) = some row →
      row.risk_level = "low" →
      (decodeSteps row.steps_json = none ∨
        ∃ steps, decodeSteps row.steps_json = some steps ∧
          ∃ s ∈ steps, stepFieldEmpty s = true) →
      execute_automation decodeSteps db pid now execId =
        (db, [], .error "AGENT_STEP_NOT_ALLOWED")) ∧
    (∀ e, (execute_automation decodeSteps db pid now execId).2.2 = .error e →
      (execute_automation decodeSteps db pid now execId).1 = db ∧
      (execute_automation decodeSteps db pid now execId).2.1 = []) := by
  refine ⟨?_, ?_, ?_, ?_⟩
  · intro hfind
    unfold execute_automation
    rw [hfind]
  · intro row hfind hrisk
    unfold execute_automation
    simp only [hfind]
    rw [if_pos hrisk]
  · intro row hfind hrisk hbad
    rcases hbad with hnone | ⟨steps, hsteps, s, hmem, hempty⟩
    · unfold execute_automation
      simp only [hfind, hnone]
      rw [if_neg (by simp [hrisk])]
    · have hval : validate_steps steps = .error "AGENT_STEP_NOT_ALLOWED" := by
        rw [validate_steps_eq, if_pos (List.any_eq_true.mpr ⟨s, hmem, hempty⟩)]
      unfold execute_automation
      simp only [hfind, hsteps, hval]
      rw [if_neg (by simp [hrisk])]
  · intro e herr
    revert herr
    cases hfind : db.proposals.find? fun p => p.id = pid with
    | none =>
      intro _
      constructor <;> · unfold execute_automation; rw [hfind]
    | some row =>
      by_cases hrisk : row.risk_level = "low"
      · cases hdec : decodeSteps row.steps_json with
        | none =>
          intro _
          constructor <;>
            · unfold execute_automation
              simp only [hfind, hdec]
              rw [if_neg (by simp [hrisk])]
        | some steps =>
          cases hval : validate_steps steps with
          | error msg =>
            intro _
            constructor <;>
              · unfold execute_automation
                simp only [hfind, hdec, hval]
                rw [if_neg (by simp [hrisk])]
          | ok u =>
            intro herr
            exfalso
            have hok : (execute_automation decodeSteps db pid now execId).2.2 =
                .ok { execution_id := execId, status := "running" } := by
              unfold execute_automation
              simp only [hfind, hdec, hval]
              rw [if_neg (by simp [hrisk])]
            rw [hok] at herr
            exact absurd herr (by simp)
      · intro _
        constructor <;> · unfold execute_automation; simp only [hfind]; rw [if_pos hrisk]

/-- Witness for `execute_automation_errors`: a high-risk proposal is
blocked and the database is unchanged. -/
theorem execute_automation_errors_witness :
    execute_automation (fun _ => some [])
        { proposals := [{ id := 3, title := "t", risk_level := "high",
                          steps_json := "[]" }], executions := [] } 3 10 1 =
      ({ proposals := [{ id := 3, title := "t", risk_level := "high",
                         steps_json := "[]" }], executions := [] }, [],
        .error "AGENT_RISK_BLOCKED") :=
  (execute_automation_errors (fun _ => some [])
      { proposals := [{ id := 3, title := "t", risk_level := "high",
                        steps_json := "[]" }], executions := [] } 3 10 1).2.1
    { id := 3, title := "t", risk_level := "high", steps_json := "[]" }
    (by decide) (by decide)

/-- Whether `needle` starts `hay`. -/
def listStartsWith : List Char → List Char → Bool
  | [], _ => true
  | _ :: _, [] => false
  | n :: ns, h :: hs => n == h && listStartsWith ns hs

/-- Substring containment over character lists. -/
def listContains (hay needle : List Char) : Bool :=
  match hay with
  | [] => needle.isEmpty
  | _ :: rest => listStartsWith needle hay || listContains rest needle

/-- Rust's `String::contains` on a string needle: some position of the
haystack starts with the needle. -/
def strContains (hay needle : String) : Bool :=
  listContains hay.toList needle.toList

/-- The background step loop of `execute_automation`: before each step the
cancel flag is read (`cancel i` is the value the atomic load returns at
the boundary before step `i`); a set flag aborts with
`AGENT_EXECUTION_CANCELLED`, a step failure aborts with its error, and a
successful step increments `steps_success`.  `exec i` abstracts the
outcome of `execute_step` on step `i`; the third component records which
steps were dispatched. -/
def run_steps (cancel : Nat → Bool) (exec : Nat → Except String Unit) :
    List AutomationStep → Nat → Nat → List Nat → Except String Unit × Nat × List Nat
  | [], _, steps_success, dispatched => (.ok (), steps_success, dispatched)
  | _s :: rest, i, steps_success, dispatched =>
    if cancel i then (.error "AGENT_EXECUTION_CANCELLED", steps_success, dispatched)
    else
      match exec i with
      | .error e => (.error e, steps_success, dispatched ++ [i])
      | .ok _ => run_steps cancel exec rest (i + 1) (steps_success + 1) (dispatched ++ [i])

/-- The tail of the spawned task in `execute_automation`: run the steps,
remove the cancel flag from the process-wide map, then UPDATE the
execution row with the final status, `finished_at` and the metadata
`{steps_total, steps_success, duration_s}`. -/
def background_execute (steps : List AutomationStep) (cancel : Nat → Bool)
    (exec : Nat → Except String Unit) (flags : List Int) (execution_id : Int)
    (row : ExecutionRow) (finished_at : Int) : ExecutionRow × List Int × List Nat :=
  let out := run_steps cancel exec steps 0 0 []
  let flagsAfter := flags.erase execution_id
  let metadata : ExecMetadata :=
    { steps_total := (steps.length : Int), steps_success := (out.2.1 : Int),
      duration_s := max (finished_at - row.created_at) 0 }
  let rowAfter :=
    match out.1 with
    | .ok _ =>
        { row with status := "success", finished_at := some finished_at,
                   error_message := none, metadata := some metadata }
    | .error e =>
        { row with
          status := if strContains e "AGENT_EXECUTION_CANCELLED" then "cancelled" else "failed",
          finished_at := some finished_at, error_message := some e,
          metadata := some metadata }
  (rowAfter, flagsAfter, out.2.2)

theorem range_map_shift (i m : Nat) :
    i :: (List.range m).map (fun x => i + 1 + x) =
      (List.range (m + 1)).map (fun x => i + x) := by
  rw [List.range_succ_eq_map, List.map_cons, List.map_map]
  refine congrArg₂ List.cons (by simp) (List.map_congr_left fun x _ => ?_)
  simp only [Function.comp_apply]
  omega

theorem run_steps_cancel_at (cancel : Nat → Bool) (exec : Nat → Except String Unit)
    (hexec : ∀ j, exec j = .ok ()) :
    ∀ (m : Nat) (ss : List AutomationStep) (i succ : Nat) (disp : List Nat),
      m < ss.length → (∀ j, j < m → cancel (i + j) = false) → cancel (i + m) = true →
      run_steps cancel exec ss i succ disp =
        (.error "AGENT_EXECUTION_CANCELLED", succ + m,
          disp ++ (List.range m).map (i + ·)) := by
  intro m
  induction m with
  | zero =>
    intro ss i succ disp hlen _hfalse htrue
    match ss with
    | [] => simp at hlen
    | s :: rest =>
      unfold run_steps
      rw [if_pos (by simpa using htrue)]
      simp
  | succ m ih =>
    intro ss i succ disp hlen hfalse htrue
    match ss with
    | [] => simp at hlen
    | s :: rest =>
      unfold run_steps
      rw [if_neg (by
        have h0 := hfalse 0 (Nat.succ_pos m)
        rw [Nat.add_zero] at h0
        simp [h0])]
      simp only [hexec i]
      rw [ih rest (i + 1) (succ + 1) (disp ++ [i]) (by simpa using hlen)
        (fun j hj => by rw [show i + 1 + j = i + (j + 1) by omega]; exact hfalse (j + 1) (by omega))
        (by rw [show i + 1 + m = i + (m + 1) by omega]; exact htrue)]
      refine Prod.ext rfl (Prod.ext ?_ ?_)
      · show succ + 1 + m = succ + (m + 1)
        omega
      · show disp ++ [i] ++ (List.range m).map (fun x => i + 1 + x) =
          disp ++ (List.range (m + 1)).map (fun x => i + x)
        rw [List.append_assoc, List.singleton_append, range_map_shift]

theorem run_steps_all_ok (cancel : Nat → Bool) (exec : Nat → Except String Unit)
    (hexec : ∀ j, exec j = .ok ()) (hcancel : ∀ j, cancel j = false) :
    ∀ (ss : List AutomationStep) (i succ : Nat) (disp : List Nat),
      run_steps cancel exec ss i succ disp =
        (.ok (), succ + ss.length, disp ++ (List.range ss.length).map (i + ·)) := by
  intro ss
  induction ss with
  | nil => intro i succ disp; simp [run_steps]
  | cons s rest ih =>
    intro i succ disp
    unfold run_steps
    rw [if_neg (by rw [hcancel i]; simp)]
    simp only [hexec i]
    rw [ih (i + 1) (succ + 1) (disp ++ [i])]
    refine Prod.ext rfl (Prod.ext ?_ ?_)
    · show succ + 1 + rest.length = succ + (s :: rest).length
      simp only [List.length_cons]
      omega
    · show disp ++ [i] ++ (List.range rest.length).map (fun x => i + 1 + x) =
        disp ++ (List.range (s :: rest).length).map (fun x => i + x)
      rw [List.append_assoc, List.singleton_append, List.length_cons, range_map_shift]

/-- C6: if the cancel flag first reads set at the boundary after exactly
`k` successful steps (`k < n`), the background task dispatches only steps
`0 … k-1` and the final execution row has status `cancelled`,
`steps_success = k`, `steps_total = n`, a non-null `finished_at`, with the
cancel flag removed from the process-wide map; if the flag never reads
set and all `n` steps succeed the row ends `success` with
`steps_success = n`. -/
theorem execution_cancel_semantics (steps : List AutomationStep) (cancel : Nat → Bool)
    (exec : Nat → Except String Unit) (flags : List Int) (execId : Int)
    (row : ExecutionRow) (t : Int) (k : Nat)
    (hexec : ∀ j, exec j = .ok ()) :
    (k < steps.length → (∀ j, j < k → cancel j = false) → cancel k = true →
      background_execute steps cancel exec flags execId row t =
        ({ row with status := "cancelled", finished_at := some t, error_message := some "AGENT_EXECUTION_CANCELLED", metadata := some { steps_total := (steps.length : Int), steps_success := (k : Int), duration_s := max (t - row.created_at) 0 } },
          flags.erase execId, List.range k)) ∧
    ((∀ j, cancel j = false) →
      background_execute steps cancel exec flags execId row t =
        ({ row with status := "success", finished_at := some t, error_message := none, metadata := some { steps_total := (steps.length : Int), steps_success := (steps.length : Int), duration_s := max (t - row.created_at) 0 } },
          flags.erase execId, List.range steps.length)) := by
  have hcon : strContains "AGENT_EXECUTION_CANCELLED" "AGENT_EXECUTION_CANCELLED" = true := by
    decide
  constructor
  · intro hk hfalse htrue
    unfold background_execute
    rw [run_steps_cancel_at cancel exec hexec k steps 0 0 [] hk
      (fun j hj => by simpa using hfalse j hj) (by simpa using htrue)]
    simp only [hcon, if_true, Nat.zero_add, List.nil_append]
    refine Prod.ext rfl (Prod.ext rfl ?_)
    simp
  · intro hfalse
    unfold background_execute
    rw [run_steps_all_ok cancel exec hexec hfalse steps 0 0 []]
    simp only [Nat.zero_add, List.nil_append]
    refine Prod.ext rfl (Prod.ext rfl ?_)
    simp

/-- Witness for `execution_cancel_semantics`: five steps, flag set after
two complete. -/
theorem execution_cancel_semantics_witness :
    background_execute
        [.createNote "n", .openUrl "u1", .openUrl "u2", .openFile "/f", .openApp "/a"]
        (fun i => decide (2 ≤ i)) (fun _ => .ok ()) [9] 9
        { id := 9, proposal_id := some 3, action := "a", status := "running",
          created_at := 40, finished_at := none, error_message := none,
          metadata := none } 50 =
      ({ id := 9, proposal_id := some 3, action := "a", status := "cancelled",
         created_at := 40, finished_at := some 50,
         error_message := some "AGENT_EXECUTION_CANCELLED",
         metadata := some { steps_total := 5, steps_success := 2, duration_s := 10 } },
        ([9] : List Int).erase 9, List.range 2) := by
  have h := (execution_cancel_semantics
      [.createNote "n", .openUrl "u1", .openUrl "u2", .openFile "/f", .openApp "/a"]
      (fun i => decide (2 ≤ i)) (fun _ => .ok ()) [9] 9
      { id := 9, proposal_id := some 3, action := "a", status := "running",
        created_at := 40, finished_at := none, error_message := none,
        metadata := none } 50 2 (fun _ => rfl)).1
    (by decide) (fun j hj => by simp; omega) (by decide)
  exact h.trans (by decide)

/-- `ai/rag.rs::HybridSearch::calculate_decayed_score` over ℚ, with the
float power `0.9f64.powf` abstracted by `pw` (`pw x` models `0.9 ^ x`): a
zero timestamp takes the missing-timestamp ×0.5 penalty, a future
timestamp is returned undecayed, otherwise the score is multiplied by
`pw (days_diff / 30)` with `days_diff = (now - timestamp) / 86400`. -/
def calculate_decayed_score (pw : ℚ → ℚ) (original_score : ℚ)
    (timestamp now : Int) : ℚ :=
  if timestamp = 0 then original_score * (1 / 2)
  else
    if now - timestamp < 0 then original_score
    else
      let days_diff : ℚ := ((now - timestamp : Int) : ℚ) / 86400
      original_score * pw (days_diff / 30)

/-- Total contribution of one result list to one id in the HashMap
accumulation of `HybridSearch::search` (each occurrence adds its score). -/
def sumScores (l : List (Int × ℚ)) (id : Int) : ℚ :=
  ((l.filter fun r => r.1 = id).map fun r => r.2).sum

/-- The fused per-id score of `HybridSearch::search`: 0.6 times the vector
contribution plus 0.4 times the BM25 contribution. -/
def fusedScore (vector_results bm25_results : List (Int × ℚ)) (id : Int) : ℚ :=
  6 / 10 * sumScores vector_results id + 4 / 10 * sumScores bm25_results id

/-- The key set of the combined HashMap: ids of either result list,
first occurrence kept. -/
def combinedIds (vector_results bm25_results : List (Int × ℚ)) : List Int :=
  ((vector_results.map Prod.fst) ++ (bm25_results.map Prod.fst)).dedup

/-- The batched timestamp lookup of `HybridSearch::get_timestamps`,
modelled as an association list. -/
def lookupTimestamp (timestamps : List (Int × Int)) (id : Int) : Option Int :=
  (timestamps.find? fun p => p.1 = id).map Prod.snd

/-- Steps 3-5 of `ai/rag.rs::HybridSearch::search`: fuse the two result
lists per id, decay each id's score by its timestamp
(`unwrap_or(0)` when the lookup misses), sort by score descending and
truncate to `limit`. -/
def hybrid_search (pw : ℚ → ℚ) (vector_results bm25_results : List (Int × ℚ))
    (timestamps : List (Int × Int)) (now : Int) (limit : Nat) : List (Int × ℚ) :=
  let final_results := (combinedIds vector_results bm25_results).map fun id =>
    (id, calculate_decayed_score pw (fusedScore vector_results bm25_results id)
      ((lookupTimestamp timestamps id).getD 0) now)
  (final_results.mergeSort fun a b => decide (b.2 ≤ a.2)).take limit

/-- C4 (amended): every returned result carries the decayed fused score;
with a fetched nonzero timestamp not in the future the decay factor is
`0.9 ^ (age_days / 30)` with `age_days = (now - timestamp) / 86400`, a
nonzero future timestamp is not decayed, and a missing timestamp — or a
fetched timestamp of exactly 0, the sentinel the code stores for missing —
multiplies the fused score by 0.5. -/
theorem hybrid_score_decay (pw : ℚ → ℚ) (vec bm : List (Int × ℚ))
    (ts : List (Int × Int)) (now : Int) (limit : Nat) :
    ∀ r ∈ hybrid_search pw vec bm ts now limit,
      r.2 = calculate_decayed_score pw (fusedScore vec bm r.1)
          ((lookupTimestamp ts r.1).getD 0) now ∧
      (lookupTimestamp ts r.1 = none → r.2 = fusedScore vec bm r.1 * (1 / 2)) ∧
      (∀ t0, lookupTimestamp ts r.1 = some t0 → t0 ≠ 0 → now < t0 →
        r.2 = fusedScore vec bm r.1) ∧
      (∀ t0, lookupTimestamp ts r.1 = some t0 → t0 ≠ 0 → t0 ≤ now →
        r.2 = fusedScore vec bm r.1 *
          pw ((((now - t0 : Int) : ℚ) / 86400) / 30)) ∧
      (lookupTimestamp ts r.1 = some 0 → r.2 = fusedScore vec bm r.1 * (1 / 2)) := by
  intro r hr
  have hmem : r ∈ (combinedIds vec bm).map fun id =>
      (id, calculate_decayed_score pw (fusedScore vec bm id)
        ((lookupTimestamp ts id).getD 0) now) := by
    unfold hybrid_search at hr
    exact List.mem_mergeSort.mp (List.mem_of_mem_take hr)
  obtain ⟨id, _hid, hform⟩ := List.mem_map.mp hmem
  have h1 : r.1 = id := by rw [← hform]
  have h2 : r.2 = calculate_decayed_score pw (fusedScore vec bm id)
      ((lookupTimestamp ts id).getD 0) now := by rw [← hform]
  subst h1
  refine ⟨h2, ?_, ?_, ?_, ?_⟩
  · intro hnone
    rw [h2, hnone]
    unfold calculate_decayed_score
    simp
  · intro t0 hsome ht0 hfut
    rw [h2, hsome]
    unfold calculate_decayed_score
    rw [Option.getD_some, if_neg ht0, if_pos (by omega)]
  · intro t0 hsome ht0 hpast
    rw [h2, hsome]
    unfold calculate_decayed_score
    rw [Option.getD_some, if_neg ht0, if_neg (by omega)]
  · intro hzero
    rw [h2, hzero]
    unfold calculate_decayed_score
    simp

/-- Witness for `hybrid_score_decay` at a concrete corpus: one id present
in both lists, timestamp 30 days before `now`. -/
theorem hybrid_score_decay_witness :
    (1, (1 : ℚ)) ∈ hybrid_search (fun x => x) [(1, 1)] [(1, 1)] [(1, 2592000)] 5184000 5 ∧
    ((1 : ℚ) = fusedScore [(1, 1)] [(1, 1)] 1 *
      (fun x : ℚ => x) ((((5184000 - 2592000 : Int) : ℚ) / 86400) / 30)) := by
  have hts : lookupTimestamp [(1, 2592000)] 1 = some 2592000 := by
    unfold lookupTimestamp
    simp
  have hfused : fusedScore [(1, 1)] [(1, 1)] 1 = 1 := by
    unfold fusedScore sumScores
    simp
    norm_num
  have hcalc1 : calculate_decayed_score (fun x => x)
      (fusedScore [(1, 1)] [(1, 1)] 1)
      ((lookupTimestamp [(1, 2592000)] 1).getD 0) 5184000 = 1 := by
    rw [hts, hfused]
    unfold calculate_decayed_score
    norm_num
  have hmem : (1, (1 : ℚ)) ∈
      hybrid_search (fun x => x) [(1, 1)] [(1, 1)] [(1, 2592000)] 5184000 5 := by
    unfold hybrid_search
    rw [show combinedIds [(1, 1)] [(1, 1)] = [1] from by unfold combinedIds; simp]
    simp only [List.map_cons, List.map_nil, hcalc1]
    simp
  refine ⟨hmem, ?_⟩
  exact (hybrid_score_decay (fun x => x) [(1, 1)] [(1, 1)] [(1, 2592000)]
      5184000 5 (1, (1 : ℚ)) hmem).2.2.2.1 2592000 hts (by decide) (by decide)

/-- Counterexample to C4 as stated: id 1's timestamp is fetched as 0 (a
representable stored value, 30 decay periods before `now`), yet its score
is the fused score times 0.5, not times `0.9 ^ (age_days / 30) = 0.9`
(here `pw` is instantiated at the exact value `0.9 ^ 1`). -/
theorem hybrid_zero_timestamp_counterexample :
    hybrid_search (fun _ => 9 / 10) [(1, 1)] [] [(1, 0)] 2592000 5 =
      [(1, 6 / 10 * (1 / 2))] ∧
    (6 / 10 * (1 / 2) : ℚ) ≠ 6 / 10 * (9 / 10) := by
  refine ⟨?_, by norm_num⟩
  have hts : lookupTimestamp [(1, 0)] 1 = some 0 := by
    unfold lookupTimestamp
    simp
  have hfused : fusedScore [(1, 1)] ([] : List (Int × ℚ)) 1 = 6 / 10 := by
    unfold fusedScore sumScores
    simp
  have hcalc : calculate_decayed_score (fun _ => (9 : ℚ) / 10)
      (fusedScore [(1, 1)] ([] : List (Int × ℚ)) 1)
      ((lookupTimestamp [(1, 0)] 1).getD 0) 2592000 = 6 / 10 * (1 / 2) := by
    rw [hts, hfused]
    unfold calculate_decayed_score
    norm_num
  unfold hybrid_search
  rw [show combinedIds [(1, 1)] ([] : List (Int × ℚ)) = [1] from by unfold combinedIds; simp]
  simp only [List.map_cons, List.map_nil, hcalc]
  simp

/-- A UI-automation element: control type, Name and Value properties
(`none` when `GetCurrentPropertyValue` fails), and control-view children. -/
inductive UiaElem where
  | node (control_type : Int) (name value : Option (List Char))
      (children : List UiaElem)
  deriving Repr

/-- `uia.rs::MAX_TRAVERSAL_DEPTH`. -/
def MAX_TRAVERSAL_DEPTH : Nat := 5

/-- Windows control-type ids used by `uia.rs::walk_tree`. -/
def UIA_TextControlTypeId : Int := 50020

def UIA_EditControlTypeId : Int := 50004

def UIA_DocumentControlTypeId : Int := 50030

/-- `text.trim().is_empty()`. -/
def isBlank (l : List Char) : Bool := l.all (·.isWhitespace)

/-- The state threaded through the tree walk: a ghost counter of processed
elements (feeding the wall-clock oracle), the collected texts, and the
ghost list of depths of processed elements. -/
structure WalkState where
  count : Nat
  texts : List (List Char)
  visited : List Nat
  deriving Repr, DecidableEq

/-- The property-collection body of `uia.rs::walk_tree` for one element:
on a Text/Edit/Document control push the non-blank Name, then push the
non-blank Value unless already collected. -/
def processElement (ct : Int) (name value : Option (List Char))
    (st : WalkState) : WalkState :=
  if ct = UIA_TextControlTypeId ∨ ct = UIA_EditControlTypeId ∨
      ct = UIA_DocumentControlTypeId then
    let stn :=
      match name with
      | some text => if !isBlank text then { st with texts := st.texts ++ [text] } else st
      | none => st
    match value with
    | some text =>
        if !isBlank text && !stn.texts.contains text then
          { stn with texts := stn.texts ++ [text] }
        else stn
    | none => stn
  else st

mutual

/-- `uia.rs::walk_tree`: return untouched past depth 5 or once the
wall-clock budget (`oracle`, read on the ghost visit counter, models
`start_time.elapsed() > 200ms`) is exhausted; otherwise collect this
element's text and recurse into the first child then its siblings. -/
def walk_tree (oracle : Nat → Bool) : UiaElem → Nat → WalkState → WalkState
  | .node ct name value children, depth, st =>
    if depth > MAX_TRAVERSAL_DEPTH then st
    else if oracle st.count then st
    else
      let st2 := processElement ct name value
        { st with count := st.count + 1, visited := depth :: st.visited }
      match children with
      | [] => st2
      | c :: rest => walk_siblings oracle rest depth (walk_tree oracle c (depth + 1) st2)

/-- The `GetNextSiblingElement` loop of `uia.rs::walk_tree`, with its
extra timeout check before each further sibling. -/
def walk_siblings (oracle : Nat → Bool) : List UiaElem → Nat → WalkState → WalkState
  | [], _, st => st
  | c :: rest, depth, st =>
    if oracle st.count then st
    else walk_siblings oracle rest depth (walk_tree oracle c (depth + 1) st)

end

/-- UTF-8 byte length of a character list (`String::len` in Rust). -/
def utf8Len (l : List Char) : Nat := (l.map Char.utf8Size).sum

/-- `uia.rs::get_window_text_content`: give up (returning nothing) when
COM init, UIA instance creation, root-element lookup or tree-walker
creation fails; walk the tree from depth 0; return nothing when no text
was collected; join with newlines and cap at 10,000 characters when the
byte length exceeds 10,000. -/
def get_window_text_content (com_ok uia_ok element_ok walker_ok : Bool)
    (oracle : Nat → Bool) (root : UiaElem) : Option (List Char) :=
  if !com_ok then none
  else if !uia_ok then none
  else if !element_ok then none
  else if !walker_ok then none
  else
    let st := walk_tree oracle root 0 { count := 0, texts := [], visited := [] }
    if st.texts.isEmpty then none
    else
      let combined := List.intercalate ['\n'] st.texts
      if utf8Len combined > 10000 then some (combined.take 10000)
      else some combined

theorem processElement_visited (ct : Int) (n v : Option (List Char))
    (st : WalkState) : (processElement ct n v st).visited = st.visited := by
  unfold processElement
  cases n <;> cases v <;> split <;> dsimp <;> repeat' first | split | rfl

mutual

theorem walk_tree_visited (oracle : Nat → Bool) (e : UiaElem) (depth : Nat)
    (st : WalkState) :
    ∀ d ∈ (walk_tree oracle e depth st).visited,
      d ∈ st.visited ∨ d ≤ MAX_TRAVERSAL_DEPTH := by
  match e with
  | .node ct name value children =>
    intro d hd
    rw [walk_tree] at hd
    by_cases h5 : depth > MAX_TRAVERSAL_DEPTH
    · rw [if_pos h5] at hd
      exact Or.inl hd
    · rw [if_neg h5] at hd
      by_cases ho : oracle st.count
      · rw [if_pos ho] at hd
        exact Or.inl hd
      · rw [if_neg ho] at hd
        have hvis : (processElement ct name value
            { st with count := st.count + 1, visited := depth :: st.visited }).visited =
            depth :: st.visited := processElement_visited ct name value _
        match children with
        | [] =>
          rw [hvis] at hd
          rcases List.mem_cons.mp hd with h | h
          · exact Or.inr (by omega)
          · exact Or.inl h
        | c :: rest =>
          rcases walk_siblings_visited oracle rest depth _ d hd with h | h
          · rcases walk_tree_visited oracle c (depth + 1) _ d h with h2 | h2
            · rw [hvis] at h2
              rcases List.mem_cons.mp h2 with h3 | h3
              · exact Or.inr (by omega)
              · exact Or.inl h3
            · exact Or.inr h2
          · exact Or.inr h

theorem walk_siblings_visited (oracle : Nat → Bool) (cs : List UiaElem)
    (depth : Nat) (st : WalkState) :
    ∀ d ∈ (walk_siblings oracle cs depth st).visited,
      d ∈ st.visited ∨ d ≤ MAX_TRAVERSAL_DEPTH := by
  match cs with
  | [] =>
    intro d hd
    rw [walk_siblings] at hd
    exact Or.inl hd
  | c :: rest =>
    intro d hd
    rw [walk_siblings] at hd
    by_cases ho : oracle st.count
    · rw [if_pos ho] at hd
      exact Or.inl hd
    · rw [if_neg ho] at hd
      rcases walk_siblings_visited oracle rest depth _ d hd with h | h
      · exact walk_tree_visited oracle c (depth + 1) st d h
      · exact Or.inr h

end

theorem utf8Len_ge_length (l : List Char) : l.length ≤ utf8Len l := by
  induction l with
  | nil => simp [utf8Len]
  | cons c rest ih =>
    unfold utf8Len at ih ⊢
    simp only [List.map_cons, List.sum_cons, List.length_cons]
    have := Char.utf8Size_pos c
    omega

/-- C8: the tree walk processes no element deeper than 5 levels below the
window root, the returned text never exceeds 10,000 characters, and the
extractor returns nothing when the walk collects no text or when COM
initialisation fails. -/
theorem uia_text_bounds (com uia elem walker : Bool) (oracle : Nat → Bool)
    (root : UiaElem) :
    (∀ d ∈ (walk_tree oracle root 0
        { count := 0, texts := [], visited := [] }).visited,
      d ≤ MAX_TRAVERSAL_DEPTH) ∧
    (∀ out, get_window_text_content com uia elem walker oracle root = some out →
      out.length ≤ 10000) ∧
    (com = false → get_window_text_content com uia elem walker oracle root = none) ∧
    ((walk_tree oracle root 0 { count := 0, texts := [], visited := [] }).texts = [] →
      get_window_text_content com uia elem walker oracle root = none) := by
  refine ⟨?_, ?_, ?_, ?_⟩
  · intro d hd
    rcases walk_tree_visited oracle root 0 _ d hd with h | h
    · simp at h
    · exact h
  · intro out hout
    unfold get_window_text_content at hout
    by_cases hcom : com
    · by_cases huia : uia
      · by_cases helem : elem
        · by_cases hwalker : walker
          · simp only [hcom, huia, helem, hwalker, Bool.not_true, Bool.false_eq_true,
              if_false] at hout
            set st := walk_tree oracle root 0 { count := 0, texts := [], visited := [] }
            by_cases hempty : st.texts.isEmpty
            · rw [if_pos hempty] at hout
              exact absurd hout (by simp)
            · rw [if_neg hempty] at hout
              by_cases hlong : utf8Len (List.intercalate ['\n'] st.texts) > 10000
              · rw [if_pos hlong] at hout
                have := congrArg (Option.map List.length) hout
                simp only [Option.map_some] at this
                have hlen : out.length = (List.intercalate ['\n'] st.texts |>.take 10000).length := by
                  cases hout
                  rfl
                rw [hlen]
                have := List.length_take 10000 (List.intercalate ['\n'] st.texts)
                omega
              · rw [if_neg hlong] at hout
                have hlen : out.length = (List.intercalate ['\n'] st.texts).length := by
                  cases hout
                  rfl
                have := utf8Len_ge_length (List.intercalate ['\n'] st.texts)
                omega
          · simp [hcom, huia, helem, hwalker] at hout
        · simp [hcom, huia, helem] at hout
      · simp [hcom, huia] at hout
    · simp [hcom] at hout
  · intro hcom
    unfold get_window_text_content
    rw [hcom]
    rfl
  · intro hempty
    unfold get_window_text_content
    by_cases hcom : com
    · by_cases huia : uia
      · by_cases helem : elem
        · by_cases hwalker : walker
          · simp only [hcom, huia, helem, hwalker, Bool.not_true, Bool.false_eq_true,
              if_false]
            rw [if_pos (by rw [hempty]; rfl)]
          · simp [hcom, huia, helem, hwalker]
        · simp [hcom, huia, helem]
      · simp [hcom, huia]
    · simp [hcom]

/-- Witness for `uia_text_bounds` on a concrete one-node tree. -/
theorem uia_text_bounds_witness :
    get_window_text_content true true true true (fun _ => false)
        (.node 50020 (some ['h', 'i']) none []) = some ['h', 'i'] ∧
    (['h', 'i'] : List Char).length ≤ 10000 := by
  have heval : get_window_text_content true true true true (fun _ => false)
      (.node 50020 (some ['h', 'i']) none []) = some ['h', 'i'] := by
    unfold get_window_text_content
    rw [walk_tree]
    simp [processElement, isBlank, UIA_TextControlTypeId, UIA_EditControlTypeId,
      UIA_DocumentControlTypeId, MAX_TRAVERSAL_DEPTH, utf8Len, List.intercalate]
  exact ⟨heval,
    (uia_text_bounds true true true true (fun _ => false)
        (.node 50020 (some ['h', 'i']) none [])).2.1 ['h', 'i'] heval⟩

/-- Regex `\w` on the ASCII range (the tokens involved are ASCII). -/
def wordChar (c : Char) : Bool := c.isAlphanum || c == '_'

/-- Whether the last character of a fragment is a word character. -/
def lastIsWord (l : List Char) : Bool :=
  match l.getLast? with
  | some c => wordChar c
  | none => false

/-- Whether the first character of a fragment is a word character. -/
def headIsWord (l : List Char) : Bool :=
  match l.head? with
  | some c => wordChar c
  | none => false

/-- Regex `\b` between two fragments: exactly one side is a word
character (string edges count as non-word). -/
def boundaryBetween (l r : List Char) : Prop := lastIsWord l ≠ headIsWord r

/-- Characters of the email local part `[A-Za-z0-9._%+-]`. -/
def emailLocalChar (c : Char) : Bool :=
  c.isAlphanum || c == '.' || c == '_' || c == '%' || c == '+' || c == '-'

/-- Characters of the email domain `[A-Za-z0-9.-]`. -/
def emailDomainChar (c : Char) : Bool := c.isAlphanum || c == '.' || c == '-'

/-- `ocr/mod.rs::mask_pii` email pattern
`\b[A-Za-z0-9._%+-]+@[A-Za-z0-9.-]+\.[A-Za-z]{2,}\b` as a match relation. -/
def emailMatches (s : List Char) : Prop :=
  ∃ pre loc dom tld post,
    s = pre ++ loc ++ ['@'] ++ dom ++ ['.'] ++ tld ++ post ∧
    loc ≠ [] ∧ loc.all emailLocalChar = true ∧
    dom ≠ [] ∧ dom.all emailDomainChar = true ∧
    2 ≤ tld.length ∧ tld.all (·.isAlpha) = true ∧
    boundaryBetween pre (loc ++ ['@'] ++ dom ++ ['.'] ++ tld) ∧
    boundaryBetween (pre ++ loc ++ ['@'] ++ dom ++ ['.'] ++ tld) post

/-- `mask_pii` mobile pattern `\b1[3-9]\d{9}\b`. -/
def phoneMatches (s : List Char) : Prop :=
  ∃ pre run post,
    s = pre ++ run ++ post ∧ run.length = 11 ∧ run.all Char.isDigit = true ∧
    run.head? = some '1' ∧
    (∃ c, run.get? 1 = some c ∧ '3' ≤ c ∧ c ≤ '9') ∧
    boundaryBetween pre run ∧ boundaryBetween (pre ++ run) post

/-- `mask_pii` national-id pattern `\b\d{17}[\dXx]\b`. -/
def idCardMatches (s : List Char) : Prop :=
  ∃ pre a b post,
    s = pre ++ a ++ [b] ++ post ∧ a.length = 17 ∧ a.all Char.isDigit = true ∧
    (b.isDigit = true ∨ b = 'X' ∨ b = 'x') ∧
    boundaryBetween pre (a ++ [b]) ∧ boundaryBetween (pre ++ a ++ [b]) post

/-- `mask_pii` bank-card pattern `\b\d{16,19}\b`. -/
def bankCardMatches (s : List Char) : Prop :=
  ∃ pre run post,
    s = pre ++ run ++ post ∧ 16 ≤ run.length ∧ run.length ≤ 19 ∧
    run.all Char.isDigit = true ∧
    boundaryBetween pre run ∧ boundaryBetween (pre ++ run) post

/-- `mask_pii` strict generic pattern `\b\d{7,}\b`. -/
def longNumberMatches (s : List Char) : Prop :=
  ∃ pre run post,
    s = pre ++ run ++ post ∧ 7 ≤ run.length ∧ run.all Char.isDigit = true ∧
    boundaryBetween pre run ∧ boundaryBetween (pre ++ run) post

/-- The phone replacement of `mask_pii`:
`format!("{}****{}", &phone[..3], &phone[7..])`. -/
def maskPhone (phone : List Char) : List Char :=
  phone.take 3 ++ List.replicate 4 '*' ++ phone.drop 7

/-- The national-id replacement of `mask_pii`:
`format!("{}****{}", &id[..6], &id[14..])`. -/
def maskIdCard (idnum : List Char) : List Char :=
  idnum.take 6 ++ List.replicate 4 '*' ++ idnum.drop 14

/-- The bank-card replacement of `mask_pii`:
`format!("{}****{}", &card[..4], &card[card.len() - 4..])`. -/
def maskBankCard (card : List Char) : List Char :=
  card.take 4 ++ List.replicate 4 '*' ++ card.drop (card.length - 4)

/-- The email replacement token of `mask_pii`. -/
def emailRedacted : List Char := "[EMAIL_REDACTED]".toList

/-- A run of 7 consecutive digits somewhere in the string: the common
core of all four digit patterns. -/
def hasDigitRun7 (s : List Char) : Prop :=
  ∃ pre t post, s = pre ++ t ++ post ∧ t.length = 7 ∧ t.all Char.isDigit = true

theorem hasDigitRun7_of_run (s pre run post : List Char)
    (heq : s = pre ++ run ++ post) (h7 : 7 ≤ run.length)
    (hdig : run.all Char.isDigit = true) : hasDigitRun7 s := by
  refine ⟨pre, run.take 7, run.drop 7 ++ post, ?_, ?_, ?_⟩
  · rw [heq]
    conv_rhs => rw [← List.append_assoc, List.append_assoc pre, List.take_append_drop]
  · rw [List.length_take]
    omega
  · rw [List.all_eq_true] at hdig ⊢
    exact fun c hc => hdig c (List.mem_of_mem_take hc)

theorem not_email_of_no_at (s : List Char) (h : ('@' : Char) ∉ s) :
    ¬ emailMatches s := by
  rintro ⟨pre, loc, dom, tld, post, heq, -⟩
  apply h
  rw [heq]
  simp

theorem phone_run7 {s : List Char} (hm : phoneMatches s) : hasDigitRun7 s := by
  obtain ⟨pre, run, post, heq, hlen, hdig, -⟩ := hm
  exact hasDigitRun7_of_run s pre run post heq (by omega) hdig

theorem idCard_run7 {s : List Char} (hm : idCardMatches s) : hasDigitRun7 s := by
  obtain ⟨pre, a, b, post, heq, hlen, hdig, -⟩ := hm
  exact hasDigitRun7_of_run s pre a ([b] ++ post) (by rw [heq]; simp [List.append_assoc])
    (by omega) hdig

theorem bankCard_run7 {s : List Char} (hm : bankCardMatches s) : hasDigitRun7 s := by
  obtain ⟨pre, run, post, heq, hlen, -, hdig, -⟩ := hm
  exact hasDigitRun7_of_run s pre run post heq (by omega) hdig

theorem longNumber_run7 {s : List Char} (hm : longNumberMatches s) : hasDigitRun7 s := by
  obtain ⟨pre, run, post, heq, hlen, hdig, -⟩ := hm
  exact hasDigitRun7_of_run s pre run post heq hlen hdig

/-- No 7-digit run fits in `A ++ "****" ++ B` when `A` has at most 6 and
`B` at most 4 characters: any such run would have to contain a star. -/
theorem no_digitRun7_star_block (A B : List Char) (hA : A.length ≤ 6)
    (hB : B.length ≤ 4) :
    ¬ hasDigitRun7 (A ++ List.replicate 4 '*' ++ B) := by
  rintro ⟨pre, t, post, heq, hlen, hdig⟩
  have hslen : (A ++ List.replicate 4 '*' ++ B).length = A.length + 4 + B.length := by
    simp
    omega
  have hslen2 : A.length + 4 + B.length = pre.length + t.length + post.length := by
    rw [← hslen, heq]
    simp
    omega
  by_cases hcase1 : pre.length + t.length ≤ A.length
  · omega
  by_cases hcase2 : A.length + 4 ≤ pre.length
  · omega
  have hj1 : pre.length ≤ max pre.length A.length := le_max_left _ _
  have hj2 : A.length ≤ max pre.length A.length := le_max_right _ _
  have hj3 : max pre.length A.length < pre.length + t.length := by omega
  have hj4 : max pre.length A.length < A.length + 4 := by omega
  have hjs : max pre.length A.length < (A ++ List.replicate 4 '*' ++ B).length := by
    omega
  have hsj : (A ++ List.replicate 4 '*' ++ B)[max pre.length A.length] = '*' := by
    rw [List.getElem_append_left (show max pre.length A.length <
        (A ++ List.replicate 4 '*').length from by simp; omega),
      List.getElem_append_right (show A.length ≤ max pre.length A.length from hj2),
      List.getElem_replicate]
  have hb2 : max pre.length A.length < (pre ++ t ++ post).length := by
    rw [← heq]
    exact hjs
  have hb3 : max pre.length A.length - pre.length < t.length := by omega
  have hchain : (A ++ List.replicate 4 '*' ++ B)[max pre.length A.length] =
      t[max pre.length A.length - pre.length] := by
    simp only [heq]
    rw [List.getElem_append_left (show max pre.length A.length <
        (pre ++ t).length from by simp; omega),
      List.getElem_append_right (show pre.length ≤ max pre.length A.length from hj1)]
  have hdg : ((A ++ List.replicate 4 '*' ++ B)[max pre.length A.length]).isDigit = true := by
    rw [hchain]
    exact List.all_eq_true.mp hdig _ (List.getElem_mem ..)
  rw [hsj] at hdg
  exact absurd hdg (by decide)

theorem no_run7_of_no_digit (s : List Char)
    (h : s.all (fun c => !c.isDigit) = true) : ¬ hasDigitRun7 s := by
  rintro ⟨pre, t, post, heq, hlen, hdig⟩
  match hm : t with
  | [] => simp [hm] at hlen
  | c :: rest =>
    have hc : c.isDigit = true := List.all_eq_true.mp hdig c (by simp)
    have hcs : c ∈ s := by
      rw [heq]
      simp
    have := List.all_eq_true.mp h c hcs
    simp [hc] at this

theorem no_at_star_block (A B : List Char)
    (hA : ∀ c ∈ A, c ≠ '@') (hB : ∀ c ∈ B, c ≠ '@') :
    ('@' : Char) ∉ A ++ List.replicate 4 '*' ++ B := by
  intro hmem
  rcases List.mem_append.mp hmem with h1 | h2
  · rcases List.mem_append.mp h1 with h3 | h4
    · exact hA '@' h3 rfl
    · have := List.eq_of_mem_replicate h4
      simp at this
  · exact hB '@' h2 rfl

/-- C9: re-running the redactor leaves its own basic tokens intact:
`[EMAIL_REDACTED]` and the masked phone / national-id / bank-card stubs
(leading digits + `****` + last 4) match none of the four basic patterns,
and the strict generic ≥7-digit rule never re-catches a masked stub. -/
theorem pii_masks_fixed_point :
    (¬ emailMatches emailRedacted ∧ ¬ phoneMatches emailRedacted ∧
      ¬ idCardMatches emailRedacted ∧ ¬ bankCardMatches emailRedacted ∧
      ¬ longNumberMatches emailRedacted) ∧
    (∀ phone : List Char, phone.length = 11 → phone.all Char.isDigit = true →
      ¬ emailMatches (maskPhone phone) ∧ ¬ phoneMatches (maskPhone phone) ∧
      ¬ idCardMatches (maskPhone phone) ∧ ¬ bankCardMatches (maskPhone phone) ∧
      ¬ longNumberMatches (maskPhone phone)) ∧
    (∀ idnum : List Char, idnum.length = 18 →
      idnum.all (fun c => c.isDigit || c == 'X' || c == 'x') = true →
      ¬ emailMatches (maskIdCard idnum) ∧ ¬ phoneMatches (maskIdCard idnum) ∧
      ¬ idCardMatches (maskIdCard idnum) ∧ ¬ bankCardMatches (maskIdCard idnum) ∧
      ¬ longNumberMatches (maskIdCard idnum)) ∧
    (∀ card : List Char, 16 ≤ card.length → card.length ≤ 19 →
      card.all Char.isDigit = true →
      ¬ emailMatches (maskBankCard card) ∧ ¬ phoneMatches (maskBankCard card) ∧
      ¬ idCardMatches (maskBankCard card) ∧ ¬ bankCardMatches (maskBankCard card) ∧
      ¬ longNumberMatches (maskBankCard card)) := by
  have noDigitToken : ¬ hasDigitRun7 emailRedacted :=
    no_run7_of_no_digit emailRedacted (by decide)
  refine ⟨⟨?_, ?_, ?_, ?_, ?_⟩, ?_, ?_, ?_⟩
  · exact not_email_of_no_at emailRedacted (by decide)
  · exact fun hm => noDigitToken (phone_run7 hm)
  · exact fun hm => noDigitToken (idCard_run7 hm)
  · exact fun hm => noDigitToken (bankCard_run7 hm)
  · exact fun hm => noDigitToken (longNumber_run7 hm)
  · intro phone hlen hdig
    have hno7 : ¬ hasDigitRun7 (maskPhone phone) := by
      unfold maskPhone
      exact no_digitRun7_star_block _ _
        (by simp only [List.length_take]; omega) (by simp only [List.length_drop]; omega)
    have hnoat : ('@' : Char) ∉ maskPhone phone := by
      unfold maskPhone
      refine no_at_star_block _ _ ?_ ?_ <;>
        · intro c hc hc2
          have hcd : c.isDigit = true := List.all_eq_true.mp hdig c
            (by first | exact List.mem_of_mem_take hc | exact List.mem_of_mem_drop hc)
          rw [hc2] at hcd
          exact absurd hcd (by decide)
    exact ⟨not_email_of_no_at _ hnoat,
      fun hm => hno7 (phone_run7 hm),
      fun hm => hno7 (idCard_run7 hm),
      fun hm => hno7 (bankCard_run7 hm),
      fun hm => hno7 (longNumber_run7 hm)⟩
  · intro idnum hlen hwit
    have hno7 : ¬ hasDigitRun7 (maskIdCard idnum) := by
      unfold maskIdCard
      exact no_digitRun7_star_block _ _
        (by simp only [List.length_take]; omega) (by simp only [List.length_drop]; omega)
    have hnoat : ('@' : Char) ∉ maskIdCard idnum := by
      unfold maskIdCard
      refine no_at_star_block _ _ ?_ ?_ <;>
        · intro c hc hc2
          have hcd := List.all_eq_true.mp hwit c
            (by first | exact List.mem_of_mem_take hc | exact List.mem_of_mem_drop hc)
          rw [hc2] at hcd
          exact absurd hcd (by decide)
    exact ⟨not_email_of_no_at _ hnoat,
      fun hm => hno7 (phone_run7 hm),
      fun hm => hno7 (idCard_run7 hm),
      fun hm => hno7 (bankCard_run7 hm),
      fun hm => hno7 (longNumber_run7 hm)⟩
  · intro card hlen1 hlen2 hdig
    have hno7 : ¬ hasDigitRun7 (maskBankCard card) := by
      unfold maskBankCard
      exact no_digitRun7_star_block _ _
        (by simp only [List.length_take]; omega) (by simp only [List.length_drop]; omega)
    have hnoat : ('@' : Char) ∉ maskBankCard card := by
      unfold maskBankCard
      refine no_at_star_block _ _ ?_ ?_ <;>
        · intro c hc hc2
          have hcd : c.isDigit = true := List.all_eq_true.mp hdig c
            (by first | exact List.mem_of_mem_take hc | exact List.mem_of_mem_drop hc)
          rw [hc2] at hcd
          exact absurd hcd (by decide)
    exact ⟨not_email_of_no_at _ hnoat,
      fun hm => hno7 (phone_run7 hm),
      fun hm => hno7 (idCard_run7 hm),
      fun hm => hno7 (bankCard_run7 hm),
      fun hm => hno7 (longNumber_run7 hm)⟩

/-- Witness for `pii_masks_fixed_point` on concrete redacted values. -/
theorem pii_masks_fixed_point_witness :
    ¬ phoneMatches (maskPhone "13812345678".toList) ∧
    ¬ longNumberMatches (maskIdCard "11010119900307001X".toList) ∧
    ¬ bankCardMatches (maskBankCard "6222020200112233445".toList) :=
  ⟨(pii_masks_fixed_point.2.1 "13812345678".toList (by decide) (by decide)).2.1,
   (pii_masks_fixed_point.2.2.1 "11010119900307001X".toList (by decide) (by decide)).2.2.2.2,
   (pii_masks_fixed_point.2.2.2 "6222020200112233445".toList (by decide) (by decide)
     (by decide)).2.2.2.1⟩

/-- Counterexample to C7 as stated: with a configured recording-interval
of 20 s the initial period is 20 s, and a single duplicate skip raises it
to 25 s, exceeding the recording-interval; the heartbeat ceiling is not
clamped to the configured recording-interval. -/
theorem heartbeat_ceiling_counterexample :
    initial_heartbeat 20000 = 20 ∧
    adjust_heartbeat true (initial_heartbeat 20000) = 25 ∧
    ¬ (25 ≤ 20000 / 1000) := by decide

end Memflow
